import Mathlib

/-!
# Verification of the pymunin plugin framework core

Shallow embedding of `plugins/pymunin/__init__.py`: the attribute-filter,
graph and plugin data model, the configuration/value rendering pipeline and
the subcommand dispatch.  Python dictionaries are modelled as association
lists with overwrite-on-insert; a raised Python exception is modelled as an
explicit error value returned next to the state or output produced before
the raise (Python mutations and prints performed before a `raise` survive
it, and the model keeps them).
-/

namespace PyMunin

/-- A Python value as used by this code base: field values and graph/field
attributes.  Floats are modelled by the rational they denote; `strlist`
covers lists of strings (argument lists, suggestion lists). -/
inductive PyVal where
  | int (n : Int)
  | float (q : ℚ)
  | str (s : String)
  | bool (b : Bool)
  | none
  | strlist (l : List String)
deriving DecidableEq

/-- Python truthiness, as used by `muninMain` on the result of `run()`. -/
def pyTruthy : PyVal → Bool
  | PyVal.int n => n ≠ 0
  | PyVal.float q => q ≠ 0
  | PyVal.str s => s ≠ ""
  | PyVal.bool b => b
  | PyVal.none => false
  | PyVal.strlist l => !l.isEmpty

/-- Zero-pad a natural number to `d` digits. -/
def padDigits (k d : Nat) : String :=
  let s := toString k
  String.mk (List.replicate (d - s.length) '0') ++ s

/-- C `printf` `%f` of the rational denoted by a float: fixed-point with six
decimals, rounding to the nearest millionth.  (`%f` rounds exact halves to
even; every value this development evaluates rounds exactly, so the
half-away-from-zero tie rule used here agrees with it.) -/
def formatFixed6 (q : ℚ) : String :=
  let a : Nat := q.num.natAbs * 1000000
  let n : Nat := (2 * a + q.den) / (2 * q.den)
  (if q.num < 0 then "-" else "") ++ toString (n / 1000000) ++ "." ++ padDigits (n % 1000000) 6

/-- Strip trailing zero digits from a `d`-digit fraction, keeping at least
one digit: helper for `str()` of a float. -/
def stripZeros : Nat → Nat → Nat × Nat
  | f, 0 => (f, 1)
  | f, 1 => (f, 1)
  | f, d + 2 => if f % 10 = 0 then stripZeros (f / 10) (d + 1) else (f, d + 2)

/-- Python `str()` of a float.  Exact for floats whose shortest decimal
expansion has at most six fractional digits — the only floats this
development ever renders this way. -/
def pyFloatStr (q : ℚ) : String :=
  let a : Nat := q.num.natAbs * 1000000
  let n : Nat := (2 * a + q.den) / (2 * q.den)
  let fd := stripZeros (n % 1000000) 6
  (if q.num < 0 then "-" else "") ++ toString (n / 1000000) ++ "." ++ padDigits fd.1 fd.2

/-- Python `str()` of a value (the `%s` conversion). -/
def pyStr : PyVal → String
  | PyVal.int n => toString n
  | PyVal.float q => pyFloatStr q
  | PyVal.str s => s
  | PyVal.bool b => if b then "True" else "False"
  | PyVal.none => "None"
  | PyVal.strlist l =>
      -- str() of a list of strings quotes each element with U+0027
      let q := String.singleton (Char.ofNat 39)
      "[" ++ String.intercalate ", " (l.map (fun s => q ++ s ++ q)) ++ "]"

/-! ## Python dictionaries as association lists -/

/-- `d.get(k)`: first binding of `k`, if any. -/
def dictGet {α : Type} (d : List (String × α)) (k : String) : Option α :=
  match d with
  | [] => Option.none
  | p :: rest => if p.1 = k then some p.2 else dictGet rest k

/-- `d[k] = v`: overwrite the binding of `k`, or append a new one. -/
def dictInsert {α : Type} (d : List (String × α)) (k : String) (v : α) :
    List (String × α) :=
  match d with
  | [] => [(k, v)]
  | p :: rest => if p.1 = k then (k, v) :: rest else p :: dictInsert rest k v

theorem dictGet_dictInsert {α : Type} (d : List (String × α)) (k : String) (v : α)
    (k' : String) :
    dictGet (dictInsert d k v) k' = if k' = k then some v else dictGet d k' := by
  induction d with
  | nil =>
    by_cases h : k' = k
    · subst h; simp [dictInsert, dictGet]
    · have h1 : ¬k = k' := fun hh => h hh.symm
      simp [dictInsert, dictGet, h, h1]
  | cons p rest ih =>
    by_cases hp : p.1 = k
    · simp only [dictInsert, hp, if_pos rfl, dictGet]
      by_cases h : k' = k
      · subst h; simp
      · have h1 : ¬k = k' := fun hh => h hh.symm
        have h2 : ¬p.1 = k' := by rw [hp]; exact h1
        simp [h, h1, h2, dictGet]
    · simp only [dictInsert, if_neg hp, dictGet, ih]
      by_cases hq : p.1 = k'
      · have h3 : ¬k' = k := fun hh => hp (hq.trans hh)
        simp [hq, h3]
      · simp [hq]

/-! ## MuninAttrFilter (source lines 24-63)

The optional compiled regex is embedded as its match predicate: the class
only ever calls `self._regex.match(attr)`, so a compiled pattern is
observationally a `String → Bool`. -/

/-- Attribute filter state: the override dictionary `_attrs` and the
`_default` flag.  The regex is consumed at construction time and not
stored (post-construction, `check` never uses it). -/
structure MuninAttrFilter where
  attrs : List (String × Bool)
  default : Bool
deriving DecidableEq

/-- `if not self._regex or self._regex.match(attr)`: a candidate passes when
no regex is set or the regex matches it. -/
def passes (attr_regex : Option (String → Bool)) (attr : String) : Bool :=
  match attr_regex with
  | Option.none => true
  | some r => r attr

/-- One of the two `for attr in list_...` loops of `MuninAttrFilter.__init__`:
record `v` under every candidate of `l` that passes the regex. -/
def applyFilterList (attr_regex : Option (String → Bool)) (v : Bool)
    (attrs : List (String × Bool)) (l : List String) : List (String × Bool) :=
  l.foldl (fun acc attr => if passes attr_regex attr then dictInsert acc attr v else acc) attrs

/-- `MuninAttrFilter.__init__`: `_default` starts `True` and is cleared as
soon as the include list is non-empty; the include loop records `True`, then
the exclude loop records `False` over the same dictionary.  (The source
guards the exclude loop with `if list_exclude:`, a no-op distinction since
the loop over an empty list does nothing.) -/
def mkMuninAttrFilter (list_include list_exclude : List String)
    (attr_regex : Option (String → Bool)) : MuninAttrFilter :=
  { attrs := applyFilterList attr_regex false
      (applyFilterList attr_regex true [] list_include) list_exclude
    default := list_include.isEmpty }

/-- `check`: `self._attrs.get(attr, self._default)`. -/
def MuninAttrFilter.check (f : MuninAttrFilter) (attr : String) : Bool :=
  (dictGet f.attrs attr).getD f.default

/-- The override recorded for `name` after one filter loop: `v` when `name`
is a passing candidate of the loop's list, the prior binding otherwise. -/
theorem applyFilterList_get (attr_regex : Option (String → Bool)) (v : Bool)
    (l : List String) (attrs : List (String × Bool)) (name : String) :
    dictGet (applyFilterList attr_regex v attrs l) name =
      if name ∈ l ∧ passes attr_regex name = true then some v
      else dictGet attrs name := by
  induction l generalizing attrs with
  | nil => simp [applyFilterList]
  | cons x xs ih =>
    simp only [applyFilterList, List.foldl_cons] at ih ⊢
    rw [ih]
    by_cases hmem : name ∈ xs ∧ passes attr_regex name = true
    · have : name ∈ x :: xs ∧ passes attr_regex name = true :=
        ⟨List.mem_cons_of_mem x hmem.1, hmem.2⟩
      simp [hmem, this]
    · simp only [hmem, if_false]
      by_cases hx : passes attr_regex x = true
      · rw [if_pos hx, dictGet_dictInsert]
        by_cases hnx : name = x
        · subst hnx
          have hcond : name ∈ name :: xs ∧ passes attr_regex name = true :=
            ⟨List.mem_cons_self name xs, hx⟩
          simp [hcond]
        · have hcond : ¬(name ∈ x :: xs ∧ passes attr_regex name = true) := by
            intro hc
            rcases List.mem_cons.mp hc.1 with h | h
            · exact hnx h
            · exact hmem ⟨h, hc.2⟩
          simp [hnx, hcond, hmem]
      · rw [if_neg hx]
        have hcond : ¬(name ∈ x :: xs ∧ passes attr_regex name = true) := by
          intro hc
          rcases List.mem_cons.mp hc.1 with h | h
          · subst h; exact hx hc.2
          · exact hmem ⟨h, hc.2⟩
        rw [if_neg hcond]

/-- C6: a non-empty include list forces `_default = False` — the flag is
cleared before (and regardless of) any regex validation — so a name recorded
by neither loop is disabled. -/
theorem C6_nonempty_include_disables_by_default
    (list_include list_exclude : List String) (attr_regex : Option (String → Bool))
    (name : String)
    (hinc : list_include ≠ []) (h1 : name ∉ list_include) (h2 : name ∉ list_exclude) :
    (mkMuninAttrFilter list_include list_exclude attr_regex).default = false ∧
    (mkMuninAttrFilter list_include list_exclude attr_regex).check name = false := by
  have hdef : (mkMuninAttrFilter list_include list_exclude attr_regex).default = false := by
    simp [mkMuninAttrFilter, List.isEmpty_iff, hinc]
  refine ⟨hdef, ?_⟩
  have hnc1 : ¬(name ∈ list_exclude ∧ passes attr_regex name = true) :=
    fun hc => h2 hc.1
  have hnc2 : ¬(name ∈ list_include ∧ passes attr_regex name = true) :=
    fun hc => h1 hc.1
  simp [MuninAttrFilter.check, mkMuninAttrFilter, applyFilterList_get, hnc1, hnc2,
    dictGet, List.isEmpty_iff, hinc]

/-- C6 witness: include list `["a"]` whose sole entry fails the regex;
the unlisted name `"b"` is still disabled. -/
theorem C6_witness :
    (mkMuninAttrFilter ["a"] [] (some (fun _ => false))).default = false ∧
    (mkMuninAttrFilter ["a"] [] (some (fun _ => false))).check "b" = false :=
  C6_nonempty_include_disables_by_default ["a"] [] (some (fun _ => false)) "b"
    (by decide) (by decide) (by decide)

/-- C7: a name on both lists is disabled.  If it passes the regex the
exclude loop overwrote its include entry with `False`; if it fails the
regex neither loop recorded it, and `_default` is `False` because the
include list is non-empty. -/
theorem C7_exclude_takes_precedence
    (list_include list_exclude : List String) (attr_regex : Option (String → Bool))
    (name : String)
    (h1 : name ∈ list_include) (h2 : name ∈ list_exclude) :
    (mkMuninAttrFilter list_include list_exclude attr_regex).check name = false := by
  by_cases hp : passes attr_regex name = true
  · have hc : name ∈ list_exclude ∧ passes attr_regex name = true := ⟨h2, hp⟩
    simp [MuninAttrFilter.check, mkMuninAttrFilter, applyFilterList_get, hc]
  · have hnc1 : ¬(name ∈ list_exclude ∧ passes attr_regex name = true) :=
      fun hc => hp hc.2
    have hnc2 : ¬(name ∈ list_include ∧ passes attr_regex name = true) :=
      fun hc => hp hc.2
    have hne : list_include ≠ [] := List.ne_nil_of_mem h1
    simp [MuninAttrFilter.check, mkMuninAttrFilter, applyFilterList_get, hnc1, hnc2,
      dictGet, List.isEmpty_iff, hne]

/-- C7 witness: `"a"` included and excluded (no regex) resolves to disabled. -/
theorem C7_witness :
    (mkMuninAttrFilter ["a", "b"] ["a"] Option.none).check "a" = false :=
  C7_exclude_takes_precedence ["a", "b"] ["a"] Option.none "a" (by decide) (by decide)

/-! ## MuninGraph (source lines 414-555)

`__init__` and `addField` capture their keyword arguments with `locals()`
into attribute dictionaries.  `locals()` also contains `self` (and, in
`addField`, `name`), but `getConfig` only ever reads the fixed key tuples
below, so those extra entries are unobservable and omitted.  The graph
constructor's `witdh` parameter is misspelled in the source: `locals()`
therefore stores the key `"witdh"` while `getConfig` reads `"width"`, so a
`graph_width` line is never emitted; the embedding reproduces this by
storing the value under `"witdh"`. -/

/-- The keyword arguments of `MuninGraph.addField` other than `name`
(each defaults to `None` in the source). -/
structure FieldAttrs where
  label : PyVal
  type : PyVal
  draw : PyVal
  info : PyVal
  extinfo : PyVal
  colour : PyVal
  negative : PyVal
  graph : PyVal
  min : PyVal
  max : PyVal
  cdef : PyVal
  line : PyVal
  warning : PyVal
  critical : PyVal
deriving DecidableEq

/-- Field attributes with only a label, everything else `None`. -/
def labelOnly (label : PyVal) : FieldAttrs :=
  ⟨label, PyVal.none, PyVal.none, PyVal.none, PyVal.none, PyVal.none, PyVal.none,
   PyVal.none, PyVal.none, PyVal.none, PyVal.none, PyVal.none, PyVal.none, PyVal.none⟩

/-- `field_attrs.get(key)` over the captured keyword arguments. -/
def fieldAttrGet (a : FieldAttrs) : String → Option PyVal
  | "label" => some a.label
  | "type" => some a.type
  | "draw" => some a.draw
  | "info" => some a.info
  | "extinfo" => some a.extinfo
  | "colour" => some a.colour
  | "negative" => some a.negative
  | "graph" => some a.graph
  | "min" => some a.min
  | "max" => some a.max
  | "cdef" => some a.cdef
  | "line" => some a.line
  | "warning" => some a.warning
  | "critical" => some a.critical
  | _ => Option.none

/-- The fixed graph-attribute key tuple of `getConfig`. -/
def graphConfigKeys : List String :=
  ["title", "category", "vlabel", "info", "args", "period",
   "scale", "total", "order", "printfformat", "width", "height"]

/-- The fixed field-attribute key tuple of `getConfig`. -/
def fieldConfigKeys : List String :=
  ["label", "type", "draw", "info", "extinfo", "colour",
   "negative", "graph", "min", "max", "cdef", "line", "warning", "critical"]

/-- `getConfig`'s value conversion: booleans become `yes`/`no`, everything
else is rendered with `%s`. -/
def renderAttrVal : PyVal → String
  | PyVal.bool b => if b then "yes" else "no"
  | v => pyStr v

/-- The state of a `MuninGraph` instance. -/
structure MuninGraph where
  graphAttrDict : List (String × PyVal)
  fieldNameList : List String
  fieldAttrDict : List (String × FieldAttrs)
  fieldValDict : List (String × PyVal)
deriving DecidableEq

/-- `MuninGraph.__init__`: capture the keyword arguments (key `"witdh"`
reproduces the source's misspelled parameter) and start with no fields. -/
def mkMuninGraph (title category vlabel info args period scale total order
    printfformat witdh height : PyVal) : MuninGraph :=
  { graphAttrDict :=
      [("title", title), ("category", category), ("vlabel", vlabel),
       ("info", info), ("args", args), ("period", period), ("scale", scale),
       ("total", total), ("order", order), ("printfformat", printfformat),
       ("witdh", witdh), ("height", height)]
    fieldNameList := []
    fieldAttrDict := []
    fieldValDict := [] }

/-- A graph constructed with only a title (every other argument left at its
`None` default). -/
def mkGraphT (title : PyVal) : MuninGraph :=
  mkMuninGraph title PyVal.none PyVal.none PyVal.none PyVal.none PyVal.none
    PyVal.none PyVal.none PyVal.none PyVal.none PyVal.none PyVal.none

/-- `addField`: append the name to `_fieldNameList` (unconditionally — a
repeated name is appended again) and overwrite its entry in
`_fieldAttrDict`. -/
def MuninGraph.addField (g : MuninGraph) (name : String) (attrs : FieldAttrs) :
    MuninGraph :=
  { g with
    fieldNameList := g.fieldNameList ++ [name]
    fieldAttrDict := dictInsert g.fieldAttrDict name attrs }

/-- `hasField`: `self._fieldAttrDict.has_key(field_name)`. -/
def MuninGraph.hasField (g : MuninGraph) (field_name : String) : Bool :=
  (dictGet g.fieldAttrDict field_name).isSome

/-- `getFieldList`: returns `self._fieldNameList`. -/
def MuninGraph.getFieldList (g : MuninGraph) : List String :=
  g.fieldNameList

/-- The graph-attribute half of `getConfig`: one `graph_<key> <val>` line
per key of the fixed tuple whose stored value is not `None` (a key absent
from the dictionary — `"width"`, thanks to the `witdh` misspelling — yields
`None` from `.get` and is skipped too). -/
def graphAttrLines (d : List (String × PyVal)) : List String :=
  graphConfigKeys.filterMap (fun key =>
    match dictGet d key with
    | some val =>
        if val = PyVal.none then Option.none
        else some ("graph_" ++ key ++ " " ++ renderAttrVal val)
    | Option.none => Option.none)

/-- The per-field half of `getConfig`: one `<field>.<key> <val>` line per
key of the fixed tuple whose value is not `None`. -/
def fieldAttrLines (field_name : String) (a : FieldAttrs) : List String :=
  fieldConfigKeys.filterMap (fun key =>
    match fieldAttrGet a key with
    | some val =>
        if val = PyVal.none then Option.none
        else some (field_name ++ "." ++ key ++ " " ++ renderAttrVal val)
    | Option.none => Option.none)

/-- The lines `getConfig` emits for one registered field name.  (If the name
had no `_fieldAttrDict` entry the source would raise on `None.get`; that
state is unreachable through `addField`, which always inserts the entry.) -/
def MuninGraph.fieldLinesOf (g : MuninGraph) (field_name : String) : List String :=
  match dictGet g.fieldAttrDict field_name with
  | some attrs => fieldAttrLines field_name attrs
  | Option.none => []

/-- The `conf` list built by `getConfig`: graph-attribute lines, then field
lines in `_fieldNameList` order. -/
def MuninGraph.configLines (g : MuninGraph) : List String :=
  graphAttrLines g.graphAttrDict ++ g.fieldNameList.flatMap g.fieldLinesOf

/-- `getConfig`: `"\n".join(conf)`. -/
def MuninGraph.getConfig (g : MuninGraph) : String :=
  String.intercalate "\n" g.configLines

/-- `setVal`: `self._fieldValDict[name] = val`, with no check that the name
was ever registered. -/
def MuninGraph.setVal (g : MuninGraph) (name : String) (val : PyVal) : MuninGraph :=
  { g with fieldValDict := dictInsert g.fieldValDict name val }

/-- One `getVals` output line: floats are rendered with `%f` (six-decimal
fixed point), every other value with `%s`. -/
def valLine (field_name : String) (val : PyVal) : String :=
  match val with
  | PyVal.float q => field_name ++ ".value " ++ formatFixed6 q
  | v => field_name ++ ".value " ++ pyStr v

/-- The `for field_name in self._fieldNameList:` loop of `getVals`,
accumulating the `vals` list: a field whose `.get` yields `None` (missing
entry, or a stored `None`) is skipped. -/
def valsLoop (d : List (String × PyVal)) (vals : List String) :
    List String → List String
  | [] => vals
  | fn :: rest =>
    match dictGet d fn with
    | some val =>
        if val = PyVal.none then valsLoop d vals rest
        else valsLoop d (vals ++ [valLine fn val]) rest
    | Option.none => valsLoop d vals rest

/-- `getVals`: run the loop from the empty accumulator and join. -/
def MuninGraph.getVals (g : MuninGraph) : String :=
  String.intercalate "\n" (valsLoop g.fieldValDict [] g.fieldNameList)

/-- Declarative description of one `getVals` entry: the line for `fn`, if
`fn` has a set (non-`None`) value in `d`. -/
def valEntry (d : List (String × PyVal)) (fn : String) : Option String :=
  match dictGet d fn with
  | some val => if val = PyVal.none then Option.none else some (valLine fn val)
  | Option.none => Option.none

theorem valsLoop_eq_filterMap (d : List (String × PyVal)) (vals : List String)
    (l : List String) :
    valsLoop d vals l = vals ++ l.filterMap (valEntry d) := by
  induction l generalizing vals with
  | nil => simp [valsLoop]
  | cons fn rest ih =>
    simp only [valsLoop, List.filterMap_cons]
    cases hd : dictGet d fn with
    | none => simp [valEntry, hd, ih]
    | some val =>
      by_cases hv : val = PyVal.none
      · simp [valEntry, hd, hv, ih]
      · simp [valEntry, hd, hv, ih, List.append_assoc]

theorem listFilterMapCongr {α β : Type} (l : List α) (f g : α → Option β)
    (h : ∀ x ∈ l, f x = g x) : l.filterMap f = l.filterMap g := by
  induction l with
  | nil => rfl
  | cons x xs ih =>
    simp only [List.filterMap_cons, h x (List.mem_cons_self x xs),
      ih (fun y hy => h y (List.mem_cons_of_mem x hy))]

theorem listBindAppend {α β : Type} (l1 l2 : List α) (f : α → List β) :
    (l1 ++ l2).flatMap f = l1.flatMap f ++ l2.flatMap f := by
  induction l1 with
  | nil => simp
  | cons x xs ih => simp [List.flatMap_cons, ih]

theorem listBindCongr {α β : Type} (l : List α) (f g : α → List β)
    (h : ∀ x ∈ l, f x = g x) : l.flatMap f = l.flatMap g := by
  induction l with
  | nil => rfl
  | cons x xs ih =>
    simp only [List.flatMap_cons, h x (List.mem_cons_self x xs),
      ih (fun y hy => h y (List.mem_cons_of_mem x hy))]

/-- C3 counterexample: `setVal` on a name never registered with `addField`
does not fail — it stores the value (there is no error path at all in the
source method), contradicting the claimed `UnknownFieldError`. -/
theorem C3_counterexample :
    (mkGraphT (PyVal.str "T")).fieldNameList = [] ∧
    ((mkGraphT (PyVal.str "T")).setVal "x" (PyVal.int 1)).fieldValDict
      = [("x", PyVal.int 1)] := by decide

/-- C3 (amended): `setVal` always succeeds, storing the value whether or not
the name was registered; a value stored under an unregistered name is
invisible to `getVals`, which iterates registered field names only. -/
theorem C3_setVal_total (g : MuninGraph) (name : String) (val : PyVal)
    (h : name ∉ g.fieldNameList) :
    (g.setVal name val).fieldValDict = dictInsert g.fieldValDict name val ∧
    (g.setVal name val).getVals = g.getVals := by
  refine ⟨rfl, ?_⟩
  show String.intercalate "\n" (valsLoop (dictInsert g.fieldValDict name val) []
        g.fieldNameList)
    = String.intercalate "\n" (valsLoop g.fieldValDict [] g.fieldNameList)
  rw [valsLoop_eq_filterMap, valsLoop_eq_filterMap]
  have := listFilterMapCongr g.fieldNameList
    (valEntry (dictInsert g.fieldValDict name val)) (valEntry g.fieldValDict)
    (fun fn hfn => by
      have hne : ¬fn = name := fun hh => h (hh ▸ hfn)
      simp [valEntry, dictGet_dictInsert, hne])
  rw [this]

/-- C3 witness for the amended statement. -/
theorem C3_witness :
    (((mkGraphT (PyVal.str "T")).addField "a" (labelOnly (PyVal.str "A"))).setVal
        "x" (PyVal.int 1)).fieldValDict
      = dictInsert ((mkGraphT (PyVal.str "T")).addField "a"
          (labelOnly (PyVal.str "A"))).fieldValDict "x" (PyVal.int 1) ∧
    (((mkGraphT (PyVal.str "T")).addField "a" (labelOnly (PyVal.str "A"))).setVal
        "x" (PyVal.int 1)).getVals
      = ((mkGraphT (PyVal.str "T")).addField "a" (labelOnly (PyVal.str "A"))).getVals :=
  C3_setVal_total ((mkGraphT (PyVal.str "T")).addField "a" (labelOnly (PyVal.str "A")))
    "x" (PyVal.int 1) (by decide)

/-- C8: `getVals` emits one `<field>.value <val>` line per field with a set
value, in registration order, skipping unset fields — the loop equals the
per-field `filterMap` — and on the graph with fields `a` (value `3.0`) and
`b` (unset) the output is exactly `a.value 3.000000`. -/
theorem C8_renderValues (g : MuninGraph) :
    g.getVals
      = String.intercalate "\n" (g.fieldNameList.filterMap (valEntry g.fieldValDict)) ∧
    ((((mkGraphT (PyVal.str "T")).addField "a" (labelOnly (PyVal.str "A"))).addField
        "b" (labelOnly (PyVal.str "B"))).setVal "a" (PyVal.float 3)).getVals
      = "a.value 3.000000" := by
  constructor
  · show String.intercalate "\n" (valsLoop g.fieldValDict [] g.fieldNameList) = _
    rw [valsLoop_eq_filterMap]
    rfl
  · decide

/-- C10: registering the same field name twice never fails: the name is
appended to `_fieldNameList` a second time, the attribute entry is
overwritten, and `getConfig` emits that field's attribute block twice, both
times from the most recent registration. -/
theorem C10_duplicate_addField (g : MuninGraph) (name : String) (a1 a2 : FieldAttrs)
    (h : name ∉ g.fieldNameList) :
    ((g.addField name a1).addField name a2).getFieldList
      = g.getFieldList ++ [name, name] ∧
    dictGet ((g.addField name a1).addField name a2).fieldAttrDict name = some a2 ∧
    ((g.addField name a1).addField name a2).configLines
      = g.configLines ++ (fieldAttrLines name a2 ++ fieldAttrLines name a2) := by
  refine ⟨?_, ?_, ?_⟩
  · simp [MuninGraph.addField, MuninGraph.getFieldList]
  · rw [show ((g.addField name a1).addField name a2).fieldAttrDict
        = dictInsert (dictInsert g.fieldAttrDict name a1) name a2 from rfl]
    rw [dictGet_dictInsert]
    simp
  · show graphAttrLines g.graphAttrDict
        ++ ((g.fieldNameList ++ [name]) ++ [name]).flatMap
            ((g.addField name a1).addField name a2).fieldLinesOf
      = (graphAttrLines g.graphAttrDict ++ g.fieldNameList.flatMap g.fieldLinesOf)
        ++ (fieldAttrLines name a2 ++ fieldAttrLines name a2)
    have hattr : ∀ fn : String,
        dictGet ((g.addField name a1).addField name a2).fieldAttrDict fn
          = if fn = name then some a2 else dictGet g.fieldAttrDict fn := by
      intro fn
      show dictGet (dictInsert (dictInsert g.fieldAttrDict name a1) name a2) fn = _
      rw [dictGet_dictInsert]
      by_cases hfn : fn = name
      · simp [hfn]
      · simp [hfn, dictGet_dictInsert]
    have hold : g.fieldNameList.flatMap ((g.addField name a1).addField name a2).fieldLinesOf
        = g.fieldNameList.flatMap g.fieldLinesOf := by
      apply listBindCongr
      intro fn hfn
      have hne : ¬fn = name := fun hh => h (hh ▸ hfn)
      simp [MuninGraph.fieldLinesOf, hattr fn, hne]
    have hnew : ((g.addField name a1).addField name a2).fieldLinesOf name
        = fieldAttrLines name a2 := by
      simp [MuninGraph.fieldLinesOf, hattr name]
    rw [List.append_assoc, listBindAppend, listBindAppend]
    simp [hold, hnew, List.append_assoc]

/-- C10 witness: a fresh graph, the field `f` registered twice with
different labels; both rendered blocks use the second label. -/
theorem C10_witness :
    (((mkGraphT (PyVal.str "T")).addField "f" (labelOnly (PyVal.str "L1"))).addField
        "f" (labelOnly (PyVal.str "L2"))).getFieldList
      = (mkGraphT (PyVal.str "T")).getFieldList ++ ["f", "f"] ∧
    dictGet (((mkGraphT (PyVal.str "T")).addField "f"
        (labelOnly (PyVal.str "L1"))).addField "f"
        (labelOnly (PyVal.str "L2"))).fieldAttrDict "f"
      = some (labelOnly (PyVal.str "L2")) ∧
    (((mkGraphT (PyVal.str "T")).addField "f" (labelOnly (PyVal.str "L1"))).addField
        "f" (labelOnly (PyVal.str "L2"))).configLines
      = (mkGraphT (PyVal.str "T")).configLines
        ++ (fieldAttrLines "f" (labelOnly (PyVal.str "L2"))
            ++ fieldAttrLines "f" (labelOnly (PyVal.str "L2"))) :=
  C10_duplicate_addField (mkGraphT (PyVal.str "T")) "f"
    (labelOnly (PyVal.str "L1")) (labelOnly (PyVal.str "L2")) (by decide)

/-! ## MuninPlugin (source lines 66-411) and muninMain (558-575)

A raised exception in a method is modelled by returning the error next to
the state mutated (or the lines printed) before the raise.  The pieces of
`MuninPlugin` outside the claims' reach — the state file path, pickled
state persistence, the `plugin_name`/`arg0` parsing — are omitted; the
overridable extension points `autoconf()` and `retrieveVals()` are modelled
by an `autoconfResult` field (the base class returns `False`) and by the
base no-op respectively. -/

/-- The Python exceptions this code can raise. -/
inductive PyErr where
  | attributeError (msg : String)
  | valueError (msg : String)
  | exception (msg : String)
deriving DecidableEq

deriving instance DecidableEq for Except

/-- `re.match('/s*(no|off)/s*$', value, re.IGNORECASE)` from `_parseEnv`.
The pattern string is exactly as in the source: `/s` is a literal slash
followed by the letter `s` (the author evidently meant `\s`), so the value
must start with `/`, then any number of `s`, then `no` or `off`, then `/`
and any number of `s` to the end.  Since the alternation starts with `n` or
`o`, dropping every leading `s` is equivalent to the regex engine's
backtracking.  (`$` also matches just before one trailing newline.) -/
def dropS : List Char → List Char
  | 's' :: rest => dropS rest
  | cs => cs

/-- Tail of the pattern after the alternation: `/s*$`. -/
def matchNoOffTail (cs : List Char) : Bool :=
  match cs with
  | '/' :: rest =>
    let rest2 := dropS rest
    rest2 = [] || rest2 = ['\n']
  | _ => false

/-- Whole-pattern matcher for `/s*(no|off)/s*$` (case-insensitive: the
input's characters are lowered — ASCII only, as in Python 2 without
`re.UNICODE` — and the pattern's letters are already lower case). -/
def matchNoOffSlashes (s : String) : Bool :=
  match s.toList.map Char.toLower with
  | '/' :: rest =>
    match dropS rest with
    | 'n' :: 'o' :: rest2 => matchNoOffTail rest2
    | 'o' :: 'f' :: 'f' :: rest2 => matchNoOffTail rest2
    | _ => false
  | _ => false

/-- `re.match('[\w\-]+$', s)`: one or more word characters or hyphens
spanning the whole string (Python 2 `\w` without `re.UNICODE` is
`[a-zA-Z0-9_]`; the `$`-before-trailing-newline nuance is irrelevant for
the names this development uses). -/
def matchWordHyphen (s : String) : Bool :=
  !s.toList.isEmpty && s.toList.all (fun c => c.isAlphanum || c = '_' || c = '-')

/-- `_parseEnv`'s handling of `nested_graphs`: the flag starts `True` and is
cleared only when the environment value matches the (typo'd) pattern. -/
def parseNestedGraphs (env : List (String × String)) : Bool :=
  match dictGet env "nested_graphs" with
  | some v => if matchNoOffSlashes v then false else true
  | Option.none => true

/-- The state of a `MuninPlugin` instance. -/
structure MuninPlugin where
  isMultigraph : Bool
  graphDict : List (String × MuninGraph)
  graphNames : List String
  subGraphDict : List (String × List (String × MuninGraph))
  nestedGraphs : Bool
  filters : List (String × MuninAttrFilter)
  argv : List String
  env : List (String × String)
  autoconfResult : Bool
deriving DecidableEq

/-- `registerFilter`: read `include_<name>` / `exclude_<name>` from the
environment (`if val:` makes a missing or empty variable the empty list,
otherwise the value splits on commas) and store the filter built from
them. -/
def MuninPlugin.registerFilter (p : MuninPlugin) (filter_name : String)
    (attr_regex : Option (String → Bool)) : MuninPlugin :=
  let envList := fun (pfx : String) =>
    match dictGet p.env (pfx ++ "_" ++ filter_name) with
    | some v => if v = "" then [] else v.splitOn ","
    | Option.none => []
  let f := mkMuninAttrFilter (envList "include") (envList "exclude") attr_regex
  { p with filters := dictInsert p.filters filter_name f }

/-- `MuninPlugin.__init__`: empty registries, `nestedGraphs` from
`_parseEnv`, then `registerFilter('graphs', '[\w\-]+$')`.  `isMultigraph`
is the class attribute a concrete plugin fixes; `autoconfResult` stands for
the concrete plugin's `autoconf()` override (`False` for the base). -/
def mkMuninPlugin (isMultigraph : Bool) (argv : List String)
    (env : List (String × String)) (autoconfResult : Bool) : MuninPlugin :=
  let p : MuninPlugin :=
    { isMultigraph := isMultigraph
      graphDict := []
      graphNames := []
      subGraphDict := []
      nestedGraphs := parseNestedGraphs env
      filters := []
      argv := argv
      env := env
      autoconfResult := autoconfResult }
  p.registerFilter "graphs" (some matchWordHyphen)

/-- `checkFilter`: delegate to the named filter, `AttributeError` when the
name was never registered. -/
def MuninPlugin.checkFilter (p : MuninPlugin) (filter_name attr : String) :
    Except PyErr Bool :=
  match dictGet p.filters filter_name with
  | some f => Except.ok (f.check attr)
  | Option.none => Except.error (PyErr.attributeError ("Undefined filter: " ++ filter_name))

/-- `graphEnabled`: `checkFilter('graphs', name)`. -/
def MuninPlugin.graphEnabled (p : MuninPlugin) (name : String) : Except PyErr Bool :=
  p.checkFilter "graphs" name

/-- `appendGraph`: the graph is stored and the name appended FIRST; only
then does a non-multigraph plugin with more than one name raise.  The
mutated state is returned alongside the error, as the raise does not undo
the two assignments. -/
def MuninPlugin.appendGraph (p : MuninPlugin) (name : String) (graph : MuninGraph) :
    MuninPlugin × Option PyErr :=
  let p2 := { p with
    graphDict := dictInsert p.graphDict name graph
    graphNames := p.graphNames ++ [name] }
  if p2.isMultigraph = false ∧ 1 < p2.graphNames.length then
    (p2, some (PyErr.attributeError "Simple Munin Plugins cannot have more than one graph."))
  else
    (p2, Option.none)

/-- `appendSubgraph`.  The source checks `has_key(parent_name)` with the
parameter, but the two assignments use the LITERAL strings
`'parent_name'` and `'graph_name'` as keys: every subgraph of every parent
lands in the single slot `_subGraphDict['parent_name']['graph_name']`, a
fresh `{}` being installed there whenever the parameter `parent_name` is
not itself a key (i.e. on every call unless a root graph is literally
named `parent_name`).  If a root graph IS named `parent_name`, the init is
skipped and the write can hit a missing key (`KeyError`). -/
def MuninPlugin.appendSubgraph (p : MuninPlugin) (parent_name graph_name : String)
    (graph : MuninGraph) : MuninPlugin × Option PyErr :=
  if p.isMultigraph = false then
    (p, some (PyErr.attributeError "Simple Munin Plugins cannot have more than one graph."))
  else if (dictGet p.graphDict parent_name).isSome then
    let d := if (dictGet p.subGraphDict parent_name).isSome then p.subGraphDict
             else dictInsert p.subGraphDict "parent_name" []
    match dictGet d "parent_name" with
    | some inner =>
        ({ p with subGraphDict :=
            dictInsert d "parent_name" (dictInsert inner "graph_name" graph) },
         Option.none)
    | Option.none => (p, some (PyErr.exception "KeyError: parent_name"))
  else
    (p, some (PyErr.exception ("Invalid parent graph name " ++ parent_name
        ++ " used for subgraph " ++ graph_name ++ ".")))

/-- `setGraphVal`: look the graph up and set the field value, `Exception`
for an unknown graph name. -/
def MuninPlugin.setGraphVal (p : MuninPlugin) (graph_name field_name : String)
    (val : PyVal) : MuninPlugin × Option PyErr :=
  match dictGet p.graphDict graph_name with
  | some graph =>
      let d2 := dictInsert p.graphDict graph_name (graph.setVal field_name val)
      ({ p with graphDict := d2 }, Option.none)
  | Option.none =>
      (p, some (PyErr.exception ("Invalid graph name " ++ graph_name
          ++ " used for setting value.")))

/-- One root-graph block of `config`/`fetch`: the `multigraph` marker for
multigraph plugins, the rendered text, and the blank line of the bare
`print`.  `self._graphDict[name]` raises `KeyError` for a name without an
entry (unreachable through `appendGraph`, which inserts both). -/
def MuninPlugin.graphBlock (p : MuninPlugin) (render : MuninGraph → String)
    (name : String) : Except PyErr (List String) :=
  match dictGet p.graphDict name with
  | some graph =>
      Except.ok ((if p.isMultigraph then ["multigraph " ++ name] else [])
        ++ [render graph, ""])
  | Option.none => Except.error (PyErr.exception ("KeyError: " ++ name))

/-- Run the per-name block emitter down a name list, keeping the lines
printed before a raise. -/
def emitBlocks (f : String → Except PyErr (List String)) :
    List String → List String × Option PyErr
  | [] => ([], Option.none)
  | n :: rest =>
    match f n with
    | Except.ok ls =>
        let r := emitBlocks f rest
        (ls ++ r.1, r.2)
    | Except.error e => ([], some e)

/-- The inner `for (graph_name, graph) in subgraphs:` loop.  `subgraphs` is
a dict, so the loop iterates its KEYS; unpacking a key string into the two
loop variables succeeds only when the key has exactly two characters (its
characters, as one-character strings, become `graph_name` and `graph` — and
the subsequent `graph.getConfig()`/`graph.getVals()` on a string raises
`AttributeError` after the marker line is printed).  For any other key
length the unpacking itself raises `ValueError` before printing anything.
Through `appendSubgraph` the only key ever present is the ten-character
literal `"graph_name"`. -/
def subgraphEntriesLoop (parent_name : String) :
    List (String × MuninGraph) → List String × Option PyErr
  | [] => ([], Option.none)
  | (key, _) :: _ =>
    match key.toList with
    | [gn, _] =>
        (["multigraph " ++ parent_name ++ "." ++ String.singleton gn],
         some (PyErr.attributeError "str object has no attribute"))
    | _ => ([], some (PyErr.valueError "too many values to unpack"))

/-- The outer `for (parent_name, subgraphs) in self._subGraphDict.iteritems():`
loop. -/
def subgraphParentsLoop :
    List (String × List (String × MuninGraph)) → List String × Option PyErr
  | [] => ([], Option.none)
  | (parent_name, subgraphs) :: rest =>
    let r := subgraphEntriesLoop parent_name subgraphs
    match r.2 with
    | some e => (r.1, some e)
    | Option.none =>
        let r2 := subgraphParentsLoop rest
        (r.1 ++ r2.1, r2.2)

/-- The `if self.nestedGraphs and self._subGraphDict:` section shared by
`config` and `fetch`.  (The render function never gets to run: the inner
loop raises before reaching a graph — see `subgraphEntriesLoop`.) -/
def MuninPlugin.subgraphSection (p : MuninPlugin) : List String × Option PyErr :=
  if p.nestedGraphs && !p.subGraphDict.isEmpty then
    subgraphParentsLoop p.subGraphDict
  else
    ([], Option.none)

/-- `config()`: root blocks via `getConfig`, then the nested-graph section,
then `return True`. -/
def MuninPlugin.config (p : MuninPlugin) : List String × Except PyErr PyVal :=
  let roots := emitBlocks (p.graphBlock MuninGraph.getConfig) p.graphNames
  match roots.2 with
  | some e => (roots.1, Except.error e)
  | Option.none =>
    let subs := p.subgraphSection
    match subs.2 with
    | some e => (roots.1 ++ subs.1, Except.error e)
    | Option.none => (roots.1 ++ subs.1, Except.ok (PyVal.bool true))

/-- `fetch()`: `self.retrieveVals()` (a no-op in the base class) then the
same traversal with `getVals`. -/
def MuninPlugin.fetch (p : MuninPlugin) : List String × Except PyErr PyVal :=
  let roots := emitBlocks (p.graphBlock MuninGraph.getVals) p.graphNames
  match roots.2 with
  | some e => (roots.1, Except.error e)
  | Option.none =>
    let subs := p.subgraphSection
    match subs.2 with
    | some e => (roots.1 ++ subs.1, Except.error e)
    | Option.none => (roots.1 ++ subs.1, Except.ok (PyVal.bool true))

/-- `autoconf()`: the base class returns `False`; `autoconfResult` stands
for a concrete plugin's override. -/
def MuninPlugin.autoconf (p : MuninPlugin) : Bool :=
  p.autoconfResult

/-- `suggest()`: the base class returns `True` — a boolean, not a list of
suggestions. -/
def MuninPlugin.suggest (_p : MuninPlugin) : PyVal :=
  PyVal.bool true

/-- `run()`: the subcommand is `argv[1]` when present and non-empty,
`fetch` otherwise.  The `autoconf` branch prints `yes`/`no` according to
`autoconf()` and then overwrites `ret` with `True`; an unknown subcommand
raises. -/
def MuninPlugin.run (p : MuninPlugin) : List String × Except PyErr PyVal :=
  let oper :=
    match p.argv.get? 1 with
    | some a => if 0 < a.length then a else "fetch"
    | Option.none => "fetch"
  if oper = "fetch" then p.fetch
  else if oper = "config" then p.config
  else if oper = "autoconf" then
    ((if p.autoconf then ["yes"] else ["no"]), Except.ok (PyVal.bool true))
  else if oper = "suggest" then ([], Except.ok p.suggest)
  else ([], Except.error (PyErr.exception ("Invalid command argument: " ++ oper)))

/-- `muninMain`: construct the plugin, run it, exit 0 on a truthy result and
1 otherwise (an uncaught exception propagates). -/
def muninMain (pluginCtor : List String → List (String × String) → MuninPlugin)
    (argv : List String) (env : List (String × String)) :
    List String × Except PyErr Nat :=
  let plugin := pluginCtor argv env
  let r := plugin.run
  match r.2 with
  | Except.ok ret => (r.1, Except.ok (if pyTruthy ret then 0 else 1))
  | Except.error e => (r.1, Except.error e)

/-! ## Claims about the plugin level -/

/-- C1 failing input, step 1: a multigraph plugin with one root graph. -/
def c1AfterRoot : MuninPlugin × Option PyErr :=
  (mkMuninPlugin true [] [] false).appendGraph "apache" (mkGraphT (PyVal.str "Apache"))

/-- C1 failing input, step 2: first subgraph under root `apache`. -/
def c1AfterSub1 : MuninPlugin × Option PyErr :=
  c1AfterRoot.1.appendSubgraph "apache" "sub1" (mkGraphT (PyVal.str "S1"))

/-- C1 failing input, step 3: second subgraph under root `apache`. -/
def c1AfterSub2 : MuninPlugin × Option PyErr :=
  c1AfterSub1.1.appendSubgraph "apache" "sub2" (mkGraphT (PyVal.str "S2"))

/-- C1: the subgraph machinery is broken in the source.  `appendSubgraph`
stores every subgraph under the literal keys
`'parent_name'`/`'graph_name'` (the second registration overwrites the
first), and `config()`/`fetch()` then crash with `ValueError` while
unpacking the ten-character key `"graph_name"` as a `(name, graph)` pair —
after the root blocks have been printed, and before any
`multigraph apache.sub1` marker is emitted. -/
theorem C1_code_bug_eval :
    c1AfterRoot.2 = Option.none ∧
    c1AfterSub1.2 = Option.none ∧
    c1AfterSub2.2 = Option.none ∧
    c1AfterSub2.1.subGraphDict
      = [("parent_name", [("graph_name", mkGraphT (PyVal.str "S2"))])] ∧
    c1AfterSub2.1.config = (["multigraph apache", "graph_title Apache", ""],
      Except.error (PyErr.valueError "too many values to unpack")) ∧
    c1AfterSub2.1.fetch = (["multigraph apache", "", ""],
      Except.error (PyErr.valueError "too many values to unpack")) := by
  decide

/-- C2: the `_parseEnv` pattern `/s*(no|off)/s*$` uses `/s` where `\s` was
meant, so `nested_graphs=no` / `off` / `No` do NOT disable nested graphs —
only slash-wrapped values such as `/no/` match the typo'd pattern. -/
theorem C2_code_bug_eval :
    (mkMuninPlugin true [] [("nested_graphs", "no")] false).nestedGraphs = true ∧
    (mkMuninPlugin true [] [("nested_graphs", "off")] false).nestedGraphs = true ∧
    (mkMuninPlugin true [] [("nested_graphs", "No")] false).nestedGraphs = true ∧
    matchNoOffSlashes "no" = false ∧
    matchNoOffSlashes "off" = false ∧
    (mkMuninPlugin true [] [("nested_graphs", "/no/")] false).nestedGraphs = false := by
  decide

/-- C4 failing input, step 1: a non-multigraph plugin with one graph. -/
def c4AfterFirst : MuninPlugin × Option PyErr :=
  (mkMuninPlugin false [] [] false).appendGraph "g1" (mkGraphT (PyVal.str "G1"))

/-- C4 failing input, step 2: the second `appendGraph` call. -/
def c4AfterSecond : MuninPlugin × Option PyErr :=
  c4AfterFirst.1.appendGraph "g2" (mkGraphT (PyVal.str "G2"))

/-- C4 counterexample: the second `appendGraph` on a non-multigraph plugin
does raise, but only AFTER storing the graph and appending its name, so the
plugin is left owning both graphs — not just the first, as the claim
states. -/
theorem C4_counterexample :
    c4AfterFirst.2 = Option.none ∧
    c4AfterSecond.2 = some (PyErr.attributeError
      "Simple Munin Plugins cannot have more than one graph.") ∧
    c4AfterSecond.1.graphNames = ["g1", "g2"] ∧
    dictGet c4AfterSecond.1.graphDict "g2" = some (mkGraphT (PyVal.str "G2")) := by
  decide

/-- C4 (amended): on a non-multigraph plugin that already owns a graph,
`appendGraph` fails — but the mutation precedes the check, so the rejected
graph remains registered (name appended, graph stored). -/
theorem C4_second_graph_still_registered (p : MuninPlugin) (name : String)
    (g : MuninGraph) (h1 : p.isMultigraph = false) (h2 : p.graphNames ≠ []) :
    (p.appendGraph name g).2.isSome ∧
    (p.appendGraph name g).1.graphNames = p.graphNames ++ [name] ∧
    dictGet (p.appendGraph name g).1.graphDict name = some g := by
  have hpos : 0 < p.graphNames.length := List.length_pos.mpr h2
  simp [MuninPlugin.appendGraph, h1, hpos, dictGet_dictInsert]

/-- C4 witness for the amended statement. -/
theorem C4_witness :
    ((((mkMuninPlugin false [] [] false).appendGraph "g1"
        (mkGraphT (PyVal.str "G1"))).1.appendGraph "g2"
        (mkGraphT (PyVal.str "G2"))).2).isSome ∧
    (((mkMuninPlugin false [] [] false).appendGraph "g1"
        (mkGraphT (PyVal.str "G1"))).1.appendGraph "g2"
        (mkGraphT (PyVal.str "G2"))).1.graphNames
      = ((mkMuninPlugin false [] [] false).appendGraph "g1"
          (mkGraphT (PyVal.str "G1"))).1.graphNames ++ ["g2"] ∧
    dictGet (((mkMuninPlugin false [] [] false).appendGraph "g1"
        (mkGraphT (PyVal.str "G1"))).1.appendGraph "g2"
        (mkGraphT (PyVal.str "G2"))).1.graphDict "g2"
      = some (mkGraphT (PyVal.str "G2")) :=
  C4_second_graph_still_registered
    ((mkMuninPlugin false [] [] false).appendGraph "g1" (mkGraphT (PyVal.str "G1"))).1
    "g2" (mkGraphT (PyVal.str "G2")) (by decide) (by decide)

/-- C5 counterexample: the base `suggest()` returns the boolean `True`, not
an empty sequence of strings. -/
theorem C5_counterexample :
    (mkMuninPlugin false [] [] false).suggest = PyVal.bool true ∧
    (mkMuninPlugin false [] [] false).suggest ≠ PyVal.strlist [] := by
  decide

/-- C5 (amended): the base `suggest()` returns the boolean `True` and
prints nothing, so `run` under the `suggest` subcommand yields no output
and a truthy result. -/
theorem C5_suggest_returns_true (p : MuninPlugin)
    (h : p.argv.get? 1 = some "suggest") :
    p.suggest = PyVal.bool true ∧
    p.run = ([], Except.ok (PyVal.bool true)) := by
  refine ⟨rfl, ?_⟩
  simp only [MuninPlugin.run]
  rw [h]
  rfl

/-- C5 witness for the amended statement. -/
theorem C5_witness :
    (mkMuninPlugin false ["p", "suggest"] [] false).suggest = PyVal.bool true ∧
    (mkMuninPlugin false ["p", "suggest"] [] false).run
      = ([], Except.ok (PyVal.bool true)) :=
  C5_suggest_returns_true (mkMuninPlugin false ["p", "suggest"] [] false) (by decide)

/-- C9: with subcommand `autoconf`, `run` prints `yes` or `no` according to
`autoconf()` but returns `True` either way, so `muninMain` exits 0 even
when auto-configuration is unsupported. -/
theorem C9_autoconf_exit_zero
    (pluginCtor : List String → List (String × String) → MuninPlugin)
    (argv : List String) (env : List (String × String))
    (h : (pluginCtor argv env).argv.get? 1 = some "autoconf") :
    (pluginCtor argv env).run
      = ((if (pluginCtor argv env).autoconf then ["yes"] else ["no"]),
         Except.ok (PyVal.bool true)) ∧
    muninMain pluginCtor argv env
      = ((if (pluginCtor argv env).autoconf then ["yes"] else ["no"]),
         Except.ok 0) := by
  have hrun : (pluginCtor argv env).run
      = ((if (pluginCtor argv env).autoconf then ["yes"] else ["no"]),
         Except.ok (PyVal.bool true)) := by
    simp only [MuninPlugin.run]
    rw [h]
    rfl
  refine ⟨hrun, ?_⟩
  simp only [muninMain]
  rw [hrun]
  rfl

/-- C9 witness: a multigraph-agnostic plugin whose `autoconf()` override
returns `True`; the run prints `yes` and the process exits 0. -/
theorem C9_witness :
    (mkMuninPlugin false ["p", "autoconf"] [] true).run
      = (["yes"], Except.ok (PyVal.bool true)) ∧
    muninMain (fun a e => mkMuninPlugin false a e true) ["p", "autoconf"] []
      = (["yes"], Except.ok 0) :=
  C9_autoconf_exit_zero (fun a e => mkMuninPlugin false a e true)
    ["p", "autoconf"] [] (by decide)

end PyMunin
